import Mathlib

set_option maxRecDepth 40000

/- Shallow embedding of src/app.py ("QA Command Center" / "Principal QA Strategy Hub").

   The test-case extractor is the parse loop in the generate handler:

     pattern = r"CASE:\s*(.*?)\s*\|\s*(.*?)\s*\|\s*(.*?)\s*\|\s*(.*?)$"
     matches = re.findall(pattern, result, re.MULTILINE)
     rows = []
     for i, match in enumerate(matches):
         scenario, expected, severity, priority = match
         rows.append({"ID": f"TC-{i+1}", "Scenario": scenario.strip(), ...})

   We embed the specific regular expression with a small backtracking matcher
   that mirrors Python `re` semantics: leftmost match, greedy stars try longer
   consumption first, lazy stars try shorter first, `.` matches anything but
   a newline, `$` (with re.MULTILINE) matches at end of input or before a
   newline, and `\s` is the whitespace class (inputs here are ASCII, where
   Python's unicode-aware `\s`, `.upper()` and `.strip()` coincide with the
   ASCII versions embedded below).  `re.findall` scans left to right for
   non-overlapping matches and returns the tuple of the four capture groups.

   Tables (pandas DataFrames) are embedded as a list of column labels plus a
   list of rows of cells; `ensure_columns` and `parse_sections` are embedded
   from the helper section of app.py.  Python dicts keyed by strings are
   embedded as association lists. -/

/-- Python's ASCII whitespace class: the characters matched by `\s` and
stripped by `str.strip()`. -/
def pyIsSpace (c : Char) : Bool :=
  c == ' ' || c == '\t' || c == '\n' || c == '\r' || c == '\x0b' || c == '\x0c'

/-- Python `str.strip()`: drop leading and trailing whitespace. -/
def pyStrip (s : String) : String :=
  ⟨((s.data.dropWhile pyIsSpace).reverse.dropWhile pyIsSpace).reverse⟩

/-- Regular-expression abstract syntax, covering exactly the constructs used
by the pattern in app.py: literal characters, the `\s` class, `.`,
multiline `$`, capture groups, greedy star, lazy star and concatenation. -/
inductive RE where
  | lit : Char → RE
  | wsC : RE
  | dotC : RE
  | eol : RE
  | grp : Nat → RE → RE
  | starG : RE → RE
  | starL : RE → RE
  | cat : RE → RE → RE

/-- Capture-group environment: group index paired with the captured characters. -/
abbrev Caps := List (Nat × List Char)

/-- All ways `r` can match a prefix of `s`, as (remaining input, captures),
listed in Python backtracking priority order: the head of the list is the
alternative Python's engine commits to.  Greedy stars put longer matches
first, lazy stars put shorter matches first.  Star bodies in the embedded
pattern always consume at least one character, and the fuel is an upper
bound on recursion depth, kept conservative by the callers. -/
def reMatches : Nat → RE → List Char → Caps → List (List Char × Caps)
  | 0, _, _, _ => []
  | _ + 1, RE.lit c, s, caps =>
    match s with
    | [] => []
    | c' :: rest => if c' = c then [(rest, caps)] else []
  | _ + 1, RE.wsC, s, caps =>
    match s with
    | [] => []
    | c :: rest => if pyIsSpace c then [(rest, caps)] else []
  | _ + 1, RE.dotC, s, caps =>
    match s with
    | [] => []
    | c :: rest => if c = '\n' then [] else [(rest, caps)]
  | _ + 1, RE.eol, s, caps =>
    match s with
    | [] => [(s, caps)]
    | c :: _ => if c = '\n' then [(s, caps)] else []
  | fuel + 1, RE.grp i r, s, caps =>
    (reMatches fuel r s caps).map
      (fun p => (p.1, (i, s.take (s.length - p.1.length)) :: p.2))
  | fuel + 1, RE.starG r, s, caps =>
    ((reMatches fuel r s caps).flatMap
      (fun p => if p.1.length < s.length then reMatches fuel (RE.starG r) p.1 p.2 else []))
      ++ [(s, caps)]
  | fuel + 1, RE.starL r, s, caps =>
    (s, caps) ::
      (reMatches fuel r s caps).flatMap
        (fun p => if p.1.length < s.length then reMatches fuel (RE.starL r) p.1 p.2 else [])
  | fuel + 1, RE.cat a b, s, caps =>
    (reMatches fuel a s caps).flatMap (fun p => reMatches fuel b p.1 p.2)

/-- The literal `CASE:` prefix of the pattern. -/
def caseLit : RE :=
  RE.cat (RE.lit 'C') (RE.cat (RE.lit 'A') (RE.cat (RE.lit 'S') (RE.cat (RE.lit 'E') (RE.lit ':'))))

/-- `\s*` (greedy). -/
def wsStar : RE := RE.starG RE.wsC

/-- `\s*\|\s*`: the field separator of the pattern. -/
def sepPipe : RE := RE.cat wsStar (RE.cat (RE.lit '|') wsStar)

/-- The pattern `CASE:\s*(.*?)\s*\|\s*(.*?)\s*\|\s*(.*?)\s*\|\s*(.*?)$`
from app.py, with groups numbered 1 to 4. -/
def casePattern : RE :=
  RE.cat caseLit (RE.cat wsStar
    (RE.cat (RE.grp 1 (RE.starL RE.dotC))
      (RE.cat sepPipe
        (RE.cat (RE.grp 2 (RE.starL RE.dotC))
          (RE.cat sepPipe
            (RE.cat (RE.grp 3 (RE.starL RE.dotC))
              (RE.cat sepPipe
                (RE.cat (RE.grp 4 (RE.starL RE.dotC)) RE.eol))))))))

/-- Attempt to match `casePattern` anchored at the start of `s`: the first
alternative in backtracking priority order, exactly the match Python's
engine returns. -/
def matchCase (s : List Char) : Option (List Char × Caps) :=
  (reMatches (2 * s.length + 100) casePattern s []).head?

/-- `re.findall(pattern, ·, re.MULTILINE)`: scan left to right, at each
position take the anchored match if there is one and continue after it,
otherwise advance one character.  Returns the capture environments of the
non-overlapping matches, in order. -/
def findAllCase : Nat → List Char → List Caps
  | 0, _ => []
  | fuel + 1, s =>
    match matchCase s with
    | some (rest, caps) =>
      caps :: (if rest.length < s.length then findAllCase fuel rest else findAllCase fuel s.tail)
    | none =>
      match s with
      | [] => []
      | _ :: t => findAllCase fuel t

/-- The string captured by group `i` (empty if the group is absent). -/
def capStr (caps : Caps) (i : Nat) : String :=
  match caps.lookup i with
  | some cs => ⟨cs⟩
  | none => ""

/-- One iteration of the row-construction loop in the generate handler:
the dict literal appended to `rows` for the `i`-th (0-based) match. -/
def mkRow (i : Nat) (caps : Caps) : List (String × String) :=
  [("ID", "TC-" ++ toString (i + 1)),
   ("Scenario", pyStrip (capStr caps 1)),
   ("Expected", pyStrip (capStr caps 2)),
   ("Status", "Pending"),
   ("Severity", pyStrip (capStr caps 3)),
   ("Priority", pyStrip (capStr caps 4)),
   ("Module", ""),
   ("Assigned_To", ""),
   ("Actual_Result", ""),
   ("Evidence_Link", "")]

/-- The extractor: `re.findall` over the model output followed by the
row-construction loop.  Returns the list of row dicts, in match order. -/
def extractRows (result : String) : List (List (String × String)) :=
  (findAllCase (result.data.length + 1) result.data).enum.map (fun p => mkRow p.1 p.2)

/- ------------------------------------------------------------------ -/
/- Tables and ensure_columns                                          -/
/- ------------------------------------------------------------------ -/

/-- A pandas DataFrame, embedded as a list of column labels together with
the rows of cell values (cell `j` of a row belongs to column `j`). -/
structure Table where
  cols : List String
  rows : List (List String)
deriving DecidableEq

/-- A table is well formed when every row has exactly one cell per column
(always true of a real DataFrame; our embedding allows ragged states). -/
def Table.WF (t : Table) : Prop :=
  ∀ r ∈ t.rows, r.length = t.cols.length

instance (t : Table) : Decidable t.WF := by
  unfold Table.WF; infer_instance

/-- The required column list from `ensure_columns` in app.py. -/
def requiredCols : List String :=
  ["ID", "Scenario", "Expected", "Status", "Severity", "Priority", "Module",
   "Assigned_To", "Actual_Result", "Evidence_Link"]

/-- `if col not in df.columns: df[col] = ""`: append a missing column,
filled with the empty string in every row. -/
def addCol (t : Table) (c : String) : Table :=
  if c ∈ t.cols then t
  else { cols := t.cols ++ [c], rows := t.rows.map (· ++ [""]) }

/-- Index of the first column with the given label, mirroring how a pandas
column label selects its (unique) column. -/
def firstIdx (p : String → Bool) : List String → Option Nat
  | [] => none
  | a :: l => if p a then some 0 else (firstIdx p l).map (· + 1)

/-- `df["Status"].replace("", "Pending")` applied to one row: rewrite the
cell at the status index when it is the empty string. -/
def statusFixRow (i : Nat) (r : List String) : List String :=
  r.set i (if r.getD i "" = "" then "Pending" else r.getD i "")

/-- `if "Status" in df.columns: df["Status"] = df["Status"].replace("", "Pending")`. -/
def replaceStatus (t : Table) : Table :=
  match firstIdx (fun x => x == "Status") t.cols with
  | none => t
  | some i => { t with rows := t.rows.map (statusFixRow i) }

/-- `ensure_columns` from app.py: add every missing required column (filled
with the empty string), then replace empty strings in the Status column
with "Pending". -/
def ensure_columns (t : Table) : Table :=
  replaceStatus (requiredCols.foldl addCol t)

/-- Reading a cell by row index and column label, the way the app reads
`bug["Severity"]` etc.: `none` only when the label or row is absent. -/
def Table.cell (t : Table) (ri : Nat) (c : String) : Option String :=
  match firstIdx (fun x => x == c) t.cols, t.rows.get? ri with
  | some ci, some r => some (r.getD ci "")
  | _, _ => none

/- ------------------------------------------------------------------ -/
/- parse_sections                                                     -/
/- ------------------------------------------------------------------ -/

/-- Python `str.upper()` (ASCII). -/
def upperStr (s : String) : String := ⟨s.data.map Char.toUpper⟩

/-- `needle` occurs as a contiguous prefix of `hay`. -/
def isPref : List Char → List Char → Bool
  | [], _ => true
  | _ :: _, [] => false
  | a :: xs, b :: ys => a == b && isPref xs ys

/-- Python `needle in hay` for strings: substring containment. -/
def occurs (needle hay : List Char) : Bool :=
  isPref needle hay ||
    match hay with
    | [] => false
    | _ :: t => occurs needle t

/-- Python `needle in hay` on `String`. -/
def strContains (hay needle : String) : Bool := occurs needle.data hay.data

/-- The dict literal initializing `sections` in `parse_sections`. -/
def sections0 : List (String × String) :=
  [("rewrite", ""), ("feature_table", ""), ("strategy", ""), ("doubts", "")]

/-- `sections[current] += line + "\n"`. -/
def appendSect (secs : List (String × String)) (k line : String) : List (String × String) :=
  secs.map (fun p => if p.1 = k then (p.1, p.2 ++ line ++ "\n") else p)

/-- The branch conditions of `parse_sections`: does the line (uppercased)
open one of the four sections? -/
def isHeaderLine (line : String) : Bool :=
  strContains (upperStr line) "REWRITE" ||
    strContains (upperStr line) "FEATURE_TABLE" ||
    (strContains (upperStr line) "STRATEGY" && !strContains (upperStr line) "TEST_CASES") ||
    strContains (upperStr line) "DOUBTS"

/-- The body of the `for line in text.split("\n")` loop of `parse_sections`:
state is (current, sections). -/
def sectStep (st : Option String × List (String × String)) (line : String) :
    Option String × List (String × String) :=
  if strContains (upperStr line) "REWRITE" then (some "rewrite", st.2)
  else if strContains (upperStr line) "FEATURE_TABLE" then (some "feature_table", st.2)
  else if strContains (upperStr line) "STRATEGY" && !strContains (upperStr line) "TEST_CASES" then
    (some "strategy", st.2)
  else if strContains (upperStr line) "DOUBTS" then (some "doubts", st.2)
  else
    match st.1 with
    | some k => (st.1, appendSect st.2 k line)
    | none => st

/-- Helper for `text.split("\n")`: accumulate the current line (reversed). -/
def splitNLAux : List Char → List Char → List (List Char)
  | [], acc => [acc.reverse]
  | c :: t, acc =>
    if c = '\n' then acc.reverse :: splitNLAux t [] else splitNLAux t (c :: acc)

/-- Python `text.split("\n")`. -/
def pySplitLines (s : String) : List String := (splitNLAux s.data []).map (⟨·⟩)

/-- Folding the loop body over the split lines. -/
def parseLines (ls : List String) : Option String × List (String × String) :=
  ls.foldl sectStep (none, sections0)

/-- `parse_sections` from app.py. -/
def parse_sections (text : String) : List (String × String) :=
  (parseLines (pySplitLines text)).2

/- ------------------------------------------------------------------ -/
/- Well-formedness of extracted rows                                  -/
/- ------------------------------------------------------------------ -/

/-- A well-formed extracted record: every required field is present, the
status is "Pending", and the four UI-only fields are empty strings. -/
def wellRow (r : List (String × String)) : Prop :=
  (∀ c ∈ requiredCols, (r.lookup c).isSome = true) ∧
  r.lookup "Status" = some "Pending" ∧
  r.lookup "Module" = some "" ∧
  r.lookup "Assigned_To" = some "" ∧
  r.lookup "Actual_Result" = some "" ∧
  r.lookup "Evidence_Link" = some ""

lemma wellRow_mkRow (i : Nat) (caps : Caps) : wellRow (mkRow i caps) := by
  refine ⟨?_, rfl, rfl, rfl, rfl, rfl⟩
  intro c hc
  simp only [requiredCols, List.mem_cons, List.not_mem_nil, or_false] at hc
  rcases hc with rfl | rfl | rfl | rfl | rfl | rfl | rfl | rfl | rfl | rfl <;> rfl

lemma wellRow_of_mem_extractRows {s : String} {r : List (String × String)}
    (hr : r ∈ extractRows s) : wellRow r := by
  unfold extractRows at hr
  rw [List.mem_map] at hr
  obtain ⟨p, -, rfl⟩ := hr
  exact wellRow_mkRow p.1 p.2

/- ------------------------------------------------------------------ -/
/- Claims C2 - C7: the extractor                                      -/
/- ------------------------------------------------------------------ -/

/-- C2: for every input string the extractor returns a (possibly empty) list
of well-formed records: every record has all ten fields, status "Pending"
and empty UI-only fields.  The extraction function is total, so no failure
can propagate out of it. -/
theorem c2_extractor_total_wellformed (s : String) (r : List (String × String))
    (hr : r ∈ extractRows s) : wellRow r :=
  wellRow_of_mem_extractRows hr

/-- Witness for C2 at the concrete input "CASE: A | B | C | D". -/
theorem c2_extractor_total_wellformed_witness :
    wellRow
      [("ID", "TC-1"), ("Scenario", "A"), ("Expected", "B"), ("Status", "Pending"),
       ("Severity", "C"), ("Priority", "D"), ("Module", ""), ("Assigned_To", ""),
       ("Actual_Result", ""), ("Evidence_Link", "")] :=
  c2_extractor_total_wellformed "CASE: A | B | C | D" _ (by decide)

/-- C3: the well-formed four-field line "CASE: A | B | C | D" yields exactly
one record with scenario "A", expected "B", severity "C", priority "D",
status "Pending" and id "TC-1". -/
theorem c3_four_field_line :
    extractRows "CASE: A | B | C | D" =
      [[("ID", "TC-1"), ("Scenario", "A"), ("Expected", "B"), ("Status", "Pending"),
        ("Severity", "C"), ("Priority", "D"), ("Module", ""), ("Assigned_To", ""),
        ("Actual_Result", ""), ("Evidence_Link", "")]] := by
  decide

/-- C4 counterexample: on "CASE: A | B" the extractor returns no record at
all (the pattern demands three literal pipes), not one record with default
severity "Major" and priority "P1" as the claim states. -/
theorem c4_two_field_line_cex : extractRows "CASE: A | B" = [] := by decide

/-- C4 amended: a marker line with fewer than four pipe-delimited fields
produces no record; only lines with at least three pipes after the marker
match, so "CASE: A | B" and "CASE: A | B | C" yield nothing while the
four-field line yields a record. -/
theorem c4_two_field_line_amended :
    extractRows "CASE: A | B" = [] ∧
    extractRows "CASE: A | B | C" = [] ∧
    extractRows "CASE: A | B | C | D" ≠ [] := by
  refine ⟨by decide, by decide, by decide⟩

/-- C5 counterexample: the literal instruction-echo line is parsed as a data
line and yields one record, not zero records as the claim states. -/
theorem c5_echo_line_cex :
    (extractRows "CASE: [Scenario] | [Expected] | [Severity] | [Priority]").length = 1 := by
  decide

/-- C5 amended: there is no echo filtering; an input consisting of the
literal instruction-echo line yields one record whose fields are the bracket
placeholders themselves. -/
theorem c5_echo_line_amended :
    extractRows "CASE: [Scenario] | [Expected] | [Severity] | [Priority]" =
      [[("ID", "TC-1"), ("Scenario", "[Scenario]"), ("Expected", "[Expected]"),
        ("Status", "Pending"), ("Severity", "[Severity]"), ("Priority", "[Priority]"),
        ("Module", ""), ("Assigned_To", ""), ("Actual_Result", ""),
        ("Evidence_Link", "")]] := by
  decide

/-- C6 counterexample: emphasis markup is not stripped: the scenario field
of the extracted record still carries the literal `**` markers. -/
theorem c6_emphasis_cex :
    (extractRows "CASE: **Login fails** | __Show error__ | Major | P1").map
      (fun r => r.lookup "Scenario") = [some "**Login fails**"] := by
  decide

/-- C6 amended: only surrounding whitespace is stripped from fields, never
`*` or `_` markup, so the record keeps "**Login fails**" and
"__Show error__" verbatim. -/
theorem c6_emphasis_amended :
    extractRows "CASE: **Login fails** | __Show error__ | Major | P1" =
      [[("ID", "TC-1"), ("Scenario", "**Login fails**"), ("Expected", "__Show error__"),
        ("Status", "Pending"), ("Severity", "Major"), ("Priority", "P1"),
        ("Module", ""), ("Assigned_To", ""), ("Actual_Result", ""),
        ("Evidence_Link", "")]] := by
  decide

/-- C7 counterexample: there is no sentinel handling: with a data-shaped
narrative line before "###SEP###" the extractor returns two records, not the
one record the claim states. -/
theorem c7_sentinel_cex :
    (extractRows "CASE: N1 | N2 | N3 | N4\n###SEP###\nCASE: X | Y | Z | W").length = 2 := by
  decide

/-- C7 amended: the extractor scans the entire text, ignoring "###SEP###":
a narrative line matching the data pattern yields an extra record, and only
when the narrative mention of "CASE:" lacks the three pipes does exactly the
one post-sentinel record remain. -/
theorem c7_sentinel_amended :
    extractRows "CASE: N1 | N2 | N3 | N4\n###SEP###\nCASE: X | Y | Z | W" =
      [[("ID", "TC-1"), ("Scenario", "N1"), ("Expected", "N2"), ("Status", "Pending"),
        ("Severity", "N3"), ("Priority", "N4"), ("Module", ""), ("Assigned_To", ""),
        ("Actual_Result", ""), ("Evidence_Link", "")],
       [("ID", "TC-2"), ("Scenario", "X"), ("Expected", "Y"), ("Status", "Pending"),
        ("Severity", "Z"), ("Priority", "W"), ("Module", ""), ("Assigned_To", ""),
        ("Actual_Result", ""), ("Evidence_Link", "")]] ∧
    extractRows "A narrative that mentions CASE: in passing\n###SEP###\nCASE: X | Y | Z | W" =
      [[("ID", "TC-1"), ("Scenario", "X"), ("Expected", "Y"), ("Status", "Pending"),
        ("Severity", "Z"), ("Priority", "W"), ("Module", ""), ("Assigned_To", ""),
        ("Actual_Result", ""), ("Evidence_Link", "")]] := by
  refine ⟨by decide, by decide⟩

/- ------------------------------------------------------------------ -/
/- ensure_columns: helper lemmas                                      -/
/- ------------------------------------------------------------------ -/

/-- The labels that the column-completion loop appends, in order: those of
`l` not already among `cols` (deduplicated as the loop goes). -/
def missing (cols : List String) : List String → List String
  | [] => []
  | c :: l => if c ∈ cols then missing cols l else c :: missing (cols ++ [c]) l

lemma foldl_addCol_eq (l : List String) : ∀ t : Table,
    List.foldl addCol t l =
      ⟨t.cols ++ missing t.cols l,
       t.rows.map (· ++ List.replicate (missing t.cols l).length "")⟩ := by
  induction l with
  | nil =>
    intro t
    simp [missing]
  | cons c l ih =>
    intro t
    by_cases hc : c ∈ t.cols
    · simp only [List.foldl_cons, addCol, if_pos hc, missing]
      exact ih t
    · simp only [List.foldl_cons, addCol, if_neg hc, missing]
      rw [ih ⟨t.cols ++ [c], t.rows.map (· ++ [""])⟩]
      simp [List.append_assoc, List.map_map, Function.comp, List.replicate_succ]

lemma replaceStatus_cols (t : Table) : (replaceStatus t).cols = t.cols := by
  unfold replaceStatus
  cases firstIdx (fun x => x == "Status") t.cols <;> rfl

lemma ensure_columns_cols (t : Table) :
    (ensure_columns t).cols = t.cols ++ missing t.cols requiredCols := by
  unfold ensure_columns
  rw [replaceStatus_cols, foldl_addCol_eq]

lemma mem_append_missing (c : String) :
    ∀ (l cols : List String), c ∈ l → c ∈ cols ++ missing cols l := by
  intro l
  induction l with
  | nil => intro cols hc; cases hc
  | cons a l ih =>
    intro cols hc
    by_cases ha : a ∈ cols
    · rw [missing, if_pos ha]
      rcases List.mem_cons.mp hc with rfl | h
      · exact List.mem_append_left _ ha
      · exact ih cols h
    · rw [missing, if_neg ha]
      rcases List.mem_cons.mp hc with rfl | h
      · exact List.mem_append_right _ (List.mem_cons_self _ _)
      · have := ih (cols ++ [a]) h
        simp only [List.append_assoc, List.singleton_append, List.mem_append,
          List.mem_cons] at this ⊢
        tauto

lemma mem_ensure_columns_cols (t : Table) (c : String) (hc : c ∈ requiredCols) :
    c ∈ (ensure_columns t).cols := by
  rw [ensure_columns_cols]
  exact mem_append_missing c requiredCols t.cols hc

lemma missing_eq_nil (l : List String) :
    ∀ cols : List String, (∀ c ∈ l, c ∈ cols) → missing cols l = [] := by
  induction l with
  | nil => intro cols _; rfl
  | cons a l ih =>
    intro cols h
    have ha : a ∈ cols := h a (List.mem_cons_self _ _)
    rw [missing, if_pos ha]
    exact ih cols (fun c hc => h c (List.mem_cons_of_mem _ hc))

lemma firstIdx_eq_none (p : String → Bool) :
    ∀ l : List String, (∀ a ∈ l, p a = false) → firstIdx p l = none := by
  intro l
  induction l with
  | nil => intro _; rfl
  | cons a l ih =>
    intro h
    rw [firstIdx, if_neg (by simp [h a (List.mem_cons_self _ _)])]
    rw [ih (fun b hb => h b (List.mem_cons_of_mem _ hb))]
    rfl

lemma firstIdx_isSome (c : String) :
    ∀ l : List String, c ∈ l → (firstIdx (fun x => x == c) l).isSome = true := by
  intro l
  induction l with
  | nil => intro h; cases h
  | cons a l ih =>
    intro h
    rw [firstIdx]
    by_cases ha : a = c
    · rw [if_pos (by simp [ha])]; rfl
    · rw [if_neg (by simp [ha])]
      rcases List.mem_cons.mp h with rfl | h
      · exact absurd rfl ha
      · have := ih h
        cases hfi : firstIdx (fun x => x == c) l
        · rw [hfi] at this; cases this
        · rfl

lemma firstIdx_lt_length (p : String → Bool) :
    ∀ (l : List String) (i : Nat), firstIdx p l = some i → i < l.length := by
  intro l
  induction l with
  | nil => intro i h; cases h
  | cons a l ih =>
    intro i h
    rw [firstIdx] at h
    by_cases ha : p a = true
    · rw [if_pos ha] at h
      cases h
      simp
    · rw [if_neg ha] at h
      cases hfi : firstIdx p l with
      | none => rw [hfi] at h; cases h
      | some j =>
        rw [hfi] at h
        cases h
        have := ih j hfi
        simpa using Nat.succ_lt_succ this

lemma firstIdx_get (p : String → Bool) :
    ∀ (l : List String) (i : Nat), firstIdx p l = some i →
      ∃ a, l.get? i = some a ∧ p a = true := by
  intro l
  induction l with
  | nil => intro i h; cases h
  | cons a l ih =>
    intro i h
    rw [firstIdx] at h
    by_cases ha : p a = true
    · rw [if_pos ha] at h
      cases h
      exact ⟨a, rfl, ha⟩
    · rw [if_neg ha] at h
      cases hfi : firstIdx p l with
      | none => rw [hfi] at h; cases h
      | some j =>
        rw [hfi] at h
        cases h
        obtain ⟨b, hb, hpb⟩ := ih j hfi
        exact ⟨b, by simpa using hb, hpb⟩

lemma firstIdx_append_left (p : String → Bool) :
    ∀ (l₁ l₂ : List String) (i : Nat), firstIdx p l₁ = some i →
      firstIdx p (l₁ ++ l₂) = some i := by
  intro l₁
  induction l₁ with
  | nil => intro l₂ i h; cases h
  | cons a l ih =>
    intro l₂ i h
    rw [firstIdx] at h
    rw [List.cons_append, firstIdx]
    by_cases ha : p a = true
    · rw [if_pos ha] at h ⊢; exact h
    · rw [if_neg ha] at h ⊢
      cases hfi : firstIdx p l with
      | none => rw [hfi] at h; cases h
      | some j =>
        rw [hfi] at h
        rw [ih l₂ j hfi]
        exact h

lemma firstIdx_append_right (p : String → Bool) :
    ∀ (l₁ l₂ : List String), firstIdx p l₁ = none →
      firstIdx p (l₁ ++ l₂) = (firstIdx p l₂).map (· + l₁.length) := by
  intro l₁
  induction l₁ with
  | nil =>
    intro l₂ _
    simp only [List.nil_append, List.length_nil]
    cases firstIdx p l₂ <;> simp
  | cons a l ih =>
    intro l₂ h
    rw [firstIdx] at h
    by_cases ha : p a = true
    · rw [if_pos ha] at h; cases h
    · rw [if_neg ha] at h
      have hl : firstIdx p l = none := by
        cases hfi : firstIdx p l
        · rfl
        · rw [hfi] at h; cases h
      rw [List.cons_append, firstIdx, if_neg ha, ih l₂ hl]
      cases firstIdx p l₂ with
      | none => rfl
      | some j => rfl

lemma getD_append_right_len :
    ∀ (l₁ l₂ : List String) (i : Nat), l₁.length ≤ i →
      (l₁ ++ l₂).getD i "" = l₂.getD (i - l₁.length) "" := by
  intro l₁
  induction l₁ with
  | nil => intro l₂ i _; simp
  | cons a l ih =>
    intro l₂ i h
    cases i with
    | zero => cases h
    | succ i =>
      have hle : l.length ≤ i := Nat.le_of_succ_le_succ h
      have : (a :: (l ++ l₂)).getD (i + 1) "" = (l ++ l₂).getD i "" := rfl
      rw [List.cons_append, this, ih l₂ i hle]
      congr 1
      simp [Nat.succ_sub_succ]

lemma getD_append_left_lt :
    ∀ (l₁ l₂ : List String) (j : Nat), j < l₁.length →
      (l₁ ++ l₂).getD j "" = l₁.getD j "" := by
  intro l₁
  induction l₁ with
  | nil => intro l₂ j h; cases h
  | cons a l ih =>
    intro l₂ j h
    cases j with
    | zero => rfl
    | succ j =>
      have : j < l.length := by simpa using Nat.lt_of_succ_lt_succ h
      simpa [List.getD] using ih l₂ j this

lemma getD_replicate_empty : ∀ (n j : Nat), (List.replicate n "").getD j "" = "" := by
  intro n
  induction n with
  | zero => intro j; cases j <;> rfl
  | succ n ih =>
    intro j
    cases j with
    | zero => rfl
    | succ j => simp [List.replicate_succ, List.getD, ih j]

lemma getD_set_self_of_lt :
    ∀ (r : List String) (i : Nat) (v : String), i < r.length → (r.set i v).getD i "" = v := by
  intro r
  induction r with
  | nil => intro i v h; cases h
  | cons a t ih =>
    intro i v h
    cases i with
    | zero => rfl
    | succ i =>
      have : i < t.length := by simpa using Nat.lt_of_succ_lt_succ h
      simpa [List.getD] using ih i v this

lemma getD_set_ne :
    ∀ (r : List String) (i j : Nat) (v : String), i ≠ j →
      (r.set i v).getD j "" = r.getD j "" := by
  intro r
  induction r with
  | nil => intro i j v _; rfl
  | cons a t ih =>
    intro i j v hij
    cases i with
    | zero =>
      cases j with
      | zero => exact absurd rfl hij
      | succ j => rfl
    | succ i =>
      cases j with
      | zero => rfl
      | succ j =>
        have : i ≠ j := fun h => hij (by rw [h])
        simpa [List.getD] using ih i j v this

lemma WF_replaceStatus (t : Table) (h : t.WF) : (replaceStatus t).WF := by
  unfold replaceStatus
  cases hsi : firstIdx (fun x => x == "Status") t.cols with
  | none => exact h
  | some i =>
    intro r hr
    simp only [List.mem_map] at hr
    obtain ⟨r0, hr0, rfl⟩ := hr
    simp [statusFixRow, List.length_set, h r0 hr0]

lemma WF_ensure_columns (t : Table) (h : t.WF) : (ensure_columns t).WF := by
  unfold ensure_columns
  rw [foldl_addCol_eq]
  apply WF_replaceStatus
  intro r hr
  simp only [List.mem_map] at hr
  obtain ⟨r0, hr0, rfl⟩ := hr
  simp [h r0 hr0]

lemma statusFixRow_nil (i : Nat) : statusFixRow i [] = [] := by
  cases i <;> rfl

lemma statusFixRow_cons_succ (i : Nat) (a : String) (l : List String) :
    statusFixRow (i + 1) (a :: l) = a :: statusFixRow i l := rfl

lemma statusFixRow_idem (i : Nat) : ∀ r : List String,
    statusFixRow i (statusFixRow i r) = statusFixRow i r := by
  induction i with
  | zero =>
    intro r
    cases r with
    | nil => rfl
    | cons a t =>
      by_cases ha : a = ""
      · simp [statusFixRow, ha]
      · simp [statusFixRow, ha]
  | succ i ih =>
    intro r
    cases r with
    | nil => rfl
    | cons a t =>
      rw [statusFixRow_cons_succ, statusFixRow_cons_succ, ih]

lemma replaceStatus_idem (t : Table) : replaceStatus (replaceStatus t) = replaceStatus t := by
  cases hsi : firstIdx (fun x => x == "Status") t.cols with
  | none =>
    have h1 : replaceStatus t = t := by unfold replaceStatus; rw [hsi]
    rw [h1, h1]
  | some i =>
    have h1 : replaceStatus t = ⟨t.cols, t.rows.map (statusFixRow i)⟩ := by
      unfold replaceStatus; rw [hsi]
    have h2 : replaceStatus ⟨t.cols, t.rows.map (statusFixRow i)⟩ =
        ⟨t.cols, (t.rows.map (statusFixRow i)).map (statusFixRow i)⟩ := by
      unfold replaceStatus; rw [hsi]
    rw [h1, h2]
    rw [List.map_map]
    congr 1
    apply List.map_congr_left
    intro r _
    exact statusFixRow_idem i r

lemma replaceStatus_some (t : Table) (i : Nat)
    (hsi : firstIdx (fun x => x == "Status") t.cols = some i) :
    replaceStatus t = ⟨t.cols, t.rows.map (statusFixRow i)⟩ := by
  unfold replaceStatus
  rw [hsi]

/-- Cell value of `ensure_columns` in a freshly added required column: the
fill is "Pending" for Status (empty fill then replaced) and the empty string
for every other column. -/
lemma cell_ensure_missing (t : Table) (h : t.WF) (c : String)
    (hreq : c ∈ requiredCols) (hc : c ∉ t.cols) (ri : Nat) (r0 : List String)
    (hrow : t.rows.get? ri = some r0) :
    Table.cell (ensure_columns t) ri c =
      some (if c = "Status" then "Pending" else "") := by
  have hr0len : r0.length = t.cols.length := h r0 (List.get?_mem hrow)
  set M := missing t.cols requiredCols with hM
  have hcM : c ∈ M := by
    have hm := mem_append_missing c requiredCols t.cols hreq
    rw [List.mem_append] at hm
    tauto
  have hnone : firstIdx (fun x => x == c) t.cols = none := by
    apply firstIdx_eq_none
    intro a ha
    rw [beq_eq_false_iff_ne]
    rintro rfl
    exact hc ha
  obtain ⟨j, hj⟩ : ∃ j, firstIdx (fun x => x == c) M = some j := by
    have hs := firstIdx_isSome c _ hcM
    cases hfi : firstIdx (fun x => x == c) M with
    | none => rw [hfi] at hs; cases hs
    | some j => exact ⟨j, rfl⟩
  have hjlt : j < M.length := firstIdx_lt_length _ _ j hj
  have hcidx : firstIdx (fun x => x == c) (t.cols ++ M) = some (j + t.cols.length) := by
    rw [firstIdx_append_right _ _ _ hnone, hj]
    rfl
  obtain ⟨si, hsi⟩ :
      ∃ si, firstIdx (fun x => x == "Status") (t.cols ++ M) = some si := by
    have hs := firstIdx_isSome "Status" (t.cols ++ M)
      (mem_append_missing "Status" requiredCols t.cols (by decide))
    cases hfi : firstIdx (fun x => x == "Status") (t.cols ++ M) with
    | none => rw [hfi] at hs; cases hs
    | some si => exact ⟨si, rfl⟩
  set x := r0 ++ List.replicate M.length "" with hx
  have hxlen : x.length = t.cols.length + M.length := by
    rw [hx, List.length_append, List.length_replicate, hr0len]
  have hxget : x.getD (j + t.cols.length) "" = "" := by
    rw [hx, getD_append_right_len r0 _ (j + t.cols.length) (by omega), getD_replicate_empty]
  unfold ensure_columns
  rw [foldl_addCol_eq]
  rw [replaceStatus_some _ si hsi]
  unfold Table.cell
  rw [hcidx, List.get?_map, List.get?_map, hrow]
  simp only [Option.map_some']
  by_cases hcs : c = "Status"
  · subst hcs
    rw [hcidx] at hsi
    injection hsi with hsi
    subst hsi
    rw [if_pos rfl]
    show some ((statusFixRow (j + t.cols.length) x).getD (j + t.cols.length) "") = _
    rw [statusFixRow, hxget, if_pos rfl,
      getD_set_self_of_lt x (j + t.cols.length) "Pending" (by omega)]
  · have hne : si ≠ j + t.cols.length := by
      intro hEq
      obtain ⟨a, hga, hpa⟩ := firstIdx_get _ _ _ hsi
      obtain ⟨b, hgb, hpb⟩ := firstIdx_get _ _ _ hcidx
      rw [hEq, hgb] at hga
      injection hga with hga
      exact hcs ((eq_of_beq hpb).symm.trans (hga.trans (eq_of_beq hpa)))
    rw [if_neg hcs]
    show some ((statusFixRow si x).getD (j + t.cols.length) "") = _
    rw [statusFixRow, getD_set_ne x si (j + t.cols.length) _ hne, hxget]

lemma cell_eq_some (t : Table) (ri : Nat) (c : String) (v : String)
    (hcell : Table.cell t ri c = some v) :
    ∃ i r0, firstIdx (fun x => x == c) t.cols = some i ∧
      t.rows.get? ri = some r0 ∧ r0.getD i "" = v := by
  unfold Table.cell at hcell
  cases hci : firstIdx (fun x => x == c) t.cols with
  | none => rw [hci] at hcell; cases hcell
  | some i =>
    rw [hci] at hcell
    cases hrow : t.rows.get? ri with
    | none => rw [hrow] at hcell; cases hcell
    | some r0 =>
      rw [hrow] at hcell
      injection hcell with hv
      exact ⟨i, r0, rfl, rfl, hv⟩

/-- Cells of a non-Status column already present in the input are preserved
verbatim by `ensure_columns` (in particular, blank Severity/Priority values
stay blank). -/
lemma cell_ensure_present_ne (t : Table) (h : t.WF) (c : String) (hcs : c ≠ "Status")
    (ri : Nat) (v : String) (hcell : Table.cell t ri c = some v) :
    Table.cell (ensure_columns t) ri c = some v := by
  obtain ⟨i, r0, hci, hrow, hv⟩ := cell_eq_some t ri c v hcell
  have hr0len : r0.length = t.cols.length := h r0 (List.get?_mem hrow)
  have hilt : i < t.cols.length := firstIdx_lt_length _ _ i hci
  set M := missing t.cols requiredCols with hM
  have hcidx : firstIdx (fun x => x == c) (t.cols ++ M) = some i :=
    firstIdx_append_left _ _ M i hci
  obtain ⟨si, hsi⟩ :
      ∃ si, firstIdx (fun x => x == "Status") (t.cols ++ M) = some si := by
    have hs := firstIdx_isSome "Status" (t.cols ++ M)
      (mem_append_missing "Status" requiredCols t.cols (by decide))
    cases hfi : firstIdx (fun x => x == "Status") (t.cols ++ M) with
    | none => rw [hfi] at hs; cases hs
    | some si => exact ⟨si, rfl⟩
  have hne : si ≠ i := by
    intro hEq
    obtain ⟨a, hga, hpa⟩ := firstIdx_get _ _ _ hsi
    obtain ⟨b, hgb, hpb⟩ := firstIdx_get _ _ _ hcidx
    rw [hEq, hgb] at hga
    injection hga with hga
    exact hcs ((eq_of_beq hpb).symm.trans (hga.trans (eq_of_beq hpa)))
  set x := r0 ++ List.replicate M.length "" with hx
  have hxget : x.getD i "" = r0.getD i "" := by
    rw [hx, getD_append_left_lt r0 _ i (by omega)]
  unfold ensure_columns
  rw [foldl_addCol_eq]
  rw [replaceStatus_some _ si hsi]
  unfold Table.cell
  rw [hcidx, List.get?_map, List.get?_map, hrow]
  simp only [Option.map_some']
  show some ((statusFixRow si x).getD i "") = _
  rw [statusFixRow, getD_set_ne x si i _ hne, hxget, hv]

/-- A present-but-blank Status cell is rewritten to "Pending" by
`ensure_columns`. -/
lemma cell_ensure_status_blank (t : Table) (h : t.WF) (ri : Nat)
    (hcell : Table.cell t ri "Status" = some "") :
    Table.cell (ensure_columns t) ri "Status" = some "Pending" := by
  obtain ⟨i, r0, hci, hrow, hv⟩ := cell_eq_some t ri "Status" "" hcell
  have hr0len : r0.length = t.cols.length := h r0 (List.get?_mem hrow)
  have hilt : i < t.cols.length := firstIdx_lt_length _ _ i hci
  set M := missing t.cols requiredCols with hM
  have hsi : firstIdx (fun x => x == "Status") (t.cols ++ M) = some i :=
    firstIdx_append_left _ _ M i hci
  set x := r0 ++ List.replicate M.length "" with hx
  have hxlen : x.length = t.cols.length + M.length := by
    rw [hx, List.length_append, List.length_replicate, hr0len]
  have hxget : x.getD i "" = "" := by
    rw [hx, getD_append_left_lt r0 _ i (by omega), hv]
  unfold ensure_columns
  rw [foldl_addCol_eq]
  rw [replaceStatus_some _ i hsi]
  unfold Table.cell
  rw [hsi, List.get?_map, List.get?_map, hrow]
  simp only [Option.map_some']
  show some ((statusFixRow i x).getD i "") = _
  rw [statusFixRow, hxget, if_pos rfl, getD_set_self_of_lt x i "Pending" (by omega)]

lemma foldl_addCol_id (u : Table) (hmem : ∀ c ∈ requiredCols, c ∈ u.cols) :
    List.foldl addCol u requiredCols = u := by
  rw [foldl_addCol_eq, missing_eq_nil requiredCols u.cols hmem]
  cases u with
  | mk cols rows => simp

/- ------------------------------------------------------------------ -/
/- Claims C1, C8, C9: schema enforcement                              -/
/- ------------------------------------------------------------------ -/

/-- C1 counterexample: schema enforcement fills a missing Severity column
with the empty string, which is neither a parsed value (the input table held
only "x") nor the documented default "Major". -/
theorem c1_documented_default_cex :
    Table.cell (ensure_columns ⟨["ID"], [["x"]]⟩) 0 "Severity" = some "" ∧
    ("" : String) ≠ "Major" := by
  refine ⟨by decide, by decide⟩

/-- C1 amended: every record produced by the extractor has all ten fields
present, every table produced by schema enforcement has all ten columns and
stays rectangular, but a filled-in field holds the code's fill value (empty
string, with Status becoming "Pending"), not always the documented default. -/
theorem c1_fields_present_amended :
    (∀ (s : String) (r : List (String × String)), r ∈ extractRows s →
        ∀ c ∈ requiredCols, (r.lookup c).isSome = true) ∧
    (∀ t : Table, ∀ c ∈ requiredCols, c ∈ (ensure_columns t).cols) ∧
    (∀ t : Table, t.WF → (ensure_columns t).WF) := by
  refine ⟨?_, ?_, ?_⟩
  · intro s r hr c hc
    exact (wellRow_of_mem_extractRows hr).1 c hc
  · intro t c hc
    exact mem_ensure_columns_cols t c hc
  · intro t h
    exact WF_ensure_columns t h

/-- Witness for C1 at concrete inputs. -/
theorem c1_fields_present_amended_witness :
    ((([("ID", "TC-1"), ("Scenario", "A"), ("Expected", "B"), ("Status", "Pending"),
        ("Severity", "C"), ("Priority", "D"), ("Module", ""), ("Assigned_To", ""),
        ("Actual_Result", ""), ("Evidence_Link", "")] :
        List (String × String)).lookup "Severity").isSome = true) ∧
    "Severity" ∈ (ensure_columns ⟨[], []⟩).cols ∧
    Table.WF (ensure_columns ⟨["ID"], [["x"]]⟩) := by
  refine ⟨c1_fields_present_amended.1 "CASE: A | B | C | D" _ (by decide) "Severity" (by decide),
    c1_fields_present_amended.2.1 ⟨[], []⟩ "Severity" (by decide),
    c1_fields_present_amended.2.2 ⟨["ID"], [["x"]]⟩ (by decide)⟩

/-- C8 counterexample: a present-but-blank Severity stays blank and a
missing Priority column is filled with the empty string; neither receives
the fixed defaults "Major" / "P1" claimed for schema enforcement. -/
theorem c8_fill_defaults_cex :
    Table.cell (ensure_columns ⟨["Severity"], [[""]]⟩) 0 "Severity" = some "" ∧
    Table.cell (ensure_columns ⟨["Severity"], [[""]]⟩) 0 "Priority" = some "" := by
  refine ⟨by decide, by decide⟩

/-- C8 amended: schema enforcement fills every missing required column with
the empty string (Status additionally becomes "Pending", whether it was
missing or present-but-empty), and leaves present columns such as Severity
untouched, so blank severity/priority values are not defaulted to
"Major"/"P1". -/
theorem c8_enforcement_amended :
    (∀ (t : Table) (ri : Nat) (r0 : List String), t.WF → "Status" ∉ t.cols →
        t.rows.get? ri = some r0 →
        Table.cell (ensure_columns t) ri "Status" = some "Pending") ∧
    (∀ (t : Table) (c : String) (ri : Nat) (r0 : List String), t.WF →
        c ∈ requiredCols → c ≠ "Status" → c ∉ t.cols →
        t.rows.get? ri = some r0 →
        Table.cell (ensure_columns t) ri c = some "") ∧
    (∀ (t : Table) (ri : Nat), t.WF → Table.cell t ri "Status" = some "" →
        Table.cell (ensure_columns t) ri "Status" = some "Pending") ∧
    (∀ (t : Table) (ri : Nat) (v : String), t.WF →
        Table.cell t ri "Severity" = some v →
        Table.cell (ensure_columns t) ri "Severity" = some v) := by
  refine ⟨?_, ?_, ?_, ?_⟩
  · intro t ri r0 h hst hrow
    have hmiss := cell_ensure_missing t h "Status" (by decide) hst ri r0 hrow
    simpa using hmiss
  · intro t c ri r0 h hreq hcs hc hrow
    have hmiss := cell_ensure_missing t h c hreq hc ri r0 hrow
    rw [if_neg hcs] at hmiss
    exact hmiss
  · intro t ri h hcell
    exact cell_ensure_status_blank t h ri hcell
  · intro t ri v h hcell
    exact cell_ensure_present_ne t h "Severity" (by decide) ri v hcell

/-- Witness for C8 at concrete tables. -/
theorem c8_enforcement_amended_witness :
    Table.cell (ensure_columns ⟨["ID"], [["x"]]⟩) 0 "Status" = some "Pending" ∧
    Table.cell (ensure_columns ⟨["ID"], [["x"]]⟩) 0 "Module" = some "" ∧
    Table.cell (ensure_columns ⟨["ID", "Status"], [["x", ""]]⟩) 0 "Status" = some "Pending" ∧
    Table.cell (ensure_columns ⟨["Severity"], [["Minor"]]⟩) 0 "Severity" = some "Minor" := by
  refine ⟨c8_enforcement_amended.1 ⟨["ID"], [["x"]]⟩ 0 ["x"] (by decide) (by decide) (by decide),
    c8_enforcement_amended.2.1 ⟨["ID"], [["x"]]⟩ "Module" 0 ["x"] (by decide) (by decide)
      (by decide) (by decide) (by decide),
    c8_enforcement_amended.2.2.1 ⟨["ID", "Status"], [["x", ""]]⟩ 0 (by decide) (by decide),
    c8_enforcement_amended.2.2.2 ⟨["Severity"], [["Minor"]]⟩ 0 "Minor" (by decide) (by decide)⟩

/-- C9: schema enforcement is idempotent: applying `ensure_columns` twice
yields the same table as applying it once. -/
theorem c9_ensure_columns_idempotent (t : Table) :
    ensure_columns (ensure_columns t) = ensure_columns t := by
  have h1 : List.foldl addCol (ensure_columns t) requiredCols = ensure_columns t :=
    foldl_addCol_id _ (fun c hc => mem_ensure_columns_cols t c hc)
  show replaceStatus (List.foldl addCol (ensure_columns t) requiredCols) = ensure_columns t
  rw [h1]
  exact replaceStatus_idem _

/- ------------------------------------------------------------------ -/
/- Claim C10: parse_sections                                          -/
/- ------------------------------------------------------------------ -/

lemma appendSect_keys (secs : List (String × String)) (k line : String) :
    (appendSect secs k line).map Prod.fst = secs.map Prod.fst := by
  unfold appendSect
  rw [List.map_map]
  apply List.map_congr_left
  intro p _
  by_cases hp : p.1 = k
  · simp [hp]
  · simp [hp]

lemma sectStep_keys (st : Option String × List (String × String)) (line : String) :
    ((sectStep st line).2).map Prod.fst = (st.2).map Prod.fst := by
  unfold sectStep
  by_cases h1 : strContains (upperStr line) "REWRITE" = true
  · simp [h1]
  · by_cases h2 : strContains (upperStr line) "FEATURE_TABLE" = true
    · simp [h1, h2]
    · by_cases h3 :
          (strContains (upperStr line) "STRATEGY" &&
            !strContains (upperStr line) "TEST_CASES") = true
      · simp [h1, h2, h3]
      · by_cases h4 : strContains (upperStr line) "DOUBTS" = true
        · simp [h1, h2, h3, h4]
        · cases hcur : st.1 with
          | some k => simp [h1, h2, h3, h4, hcur, appendSect_keys]
          | none => simp [h1, h2, h3, h4, hcur]

lemma foldl_sectStep_keys (ls : List String) :
    ∀ st : Option String × List (String × String),
      ((ls.foldl sectStep st).2).map Prod.fst = (st.2).map Prod.fst := by
  induction ls with
  | nil => intro st; rfl
  | cons a ls ih =>
    intro st
    rw [List.foldl_cons, ih (sectStep st a), sectStep_keys]

lemma sectStep_header_keeps (st : Option String × List (String × String)) (line : String)
    (h : isHeaderLine line = true) : (sectStep st line).2 = st.2 := by
  unfold isHeaderLine at h
  unfold sectStep
  by_cases h1 : strContains (upperStr line) "REWRITE" = true
  · simp [h1]
  · by_cases h2 : strContains (upperStr line) "FEATURE_TABLE" = true
    · simp [h1, h2]
    · by_cases h3 :
          (strContains (upperStr line) "STRATEGY" &&
            !strContains (upperStr line) "TEST_CASES") = true
      · simp [h1, h2, h3]
      · by_cases h4 : strContains (upperStr line) "DOUBTS" = true
        · simp [h1, h2, h3, h4]
        · exfalso
          rw [Bool.or_eq_true, Bool.or_eq_true, Bool.or_eq_true] at h
          rcases h with ((ha2 | hb) | hc) | hd
          · exact h1 ha2
          · exact h2 hb
          · exact h3 hc
          · exact h4 hd

lemma sectStep_nonheader_none (secs : List (String × String)) (line : String)
    (h : isHeaderLine line = false) : sectStep (none, secs) line = (none, secs) := by
  unfold isHeaderLine at h
  rw [Bool.or_eq_false_iff, Bool.or_eq_false_iff, Bool.or_eq_false_iff] at h
  obtain ⟨⟨⟨h1, h2⟩, h3⟩, h4⟩ := h
  unfold sectStep
  rw [if_neg (by simp [h1]), if_neg (by simp [h2]), if_neg (by simp [h3]),
    if_neg (by simp [h4])]

lemma parseLines_dropWhile (ls : List String) :
    List.foldl sectStep (none, sections0) (ls.dropWhile (fun l => !isHeaderLine l)) =
      List.foldl sectStep (none, sections0) ls := by
  induction ls with
  | nil => rfl
  | cons a ls ih =>
    by_cases ha : isHeaderLine a = true
    · rw [List.dropWhile_cons]
      simp [ha]
    · have ha' : isHeaderLine a = false := by
        cases hb : isHeaderLine a
        · rfl
        · exact absurd hb ha
      rw [List.dropWhile_cons]
      rw [if_pos (by simp [ha'])]
      rw [List.foldl_cons, sectStep_nonheader_none sections0 a ha']
      exact ih

/-- C10 counterexample: the line "STRATEGY TEST_CASES DOUBTS" contains both
"STRATEGY" and "TEST_CASES" while a strategy section is open, yet it is not
appended to that section: it starts the doubts section instead (the DOUBTS
branch fires), so the following line lands in doubts. -/
theorem c10_sections_cex :
    parse_sections "STRATEGY\nSTRATEGY TEST_CASES DOUBTS\nmore" =
      [("rewrite", ""), ("feature_table", ""), ("strategy", ""), ("doubts", "more\n")] := by
  decide

/-- C10 amended: `parse_sections` always returns exactly the four keys; a
header line is never appended to any section; lines before the first header
are discarded; and a line containing both "STRATEGY" and "TEST_CASES" does
not start the strategy section and, provided it contains none of the other
header keywords ("REWRITE", "FEATURE_TABLE", "DOUBTS"), is appended to the
currently open section, if any. -/
theorem c10_sections_amended :
    (∀ text : String, (parse_sections text).map Prod.fst =
        ["rewrite", "feature_table", "strategy", "doubts"]) ∧
    (∀ (st : Option String × List (String × String)) (line : String),
        isHeaderLine line = true → (sectStep st line).2 = st.2) ∧
    (∀ text : String,
        List.foldl sectStep (none, sections0)
            ((pySplitLines text).dropWhile (fun l => !isHeaderLine l)) =
          parseLines (pySplitLines text)) ∧
    (∀ (st : Option String × List (String × String)) (line : String),
        strContains (upperStr line) "STRATEGY" = true →
        strContains (upperStr line) "TEST_CASES" = true →
        strContains (upperStr line) "REWRITE" = false →
        strContains (upperStr line) "FEATURE_TABLE" = false →
        strContains (upperStr line) "DOUBTS" = false →
        sectStep st line =
          (st.1, match st.1 with
                 | some k => appendSect st.2 k line
                 | none => st.2)) := by
  refine ⟨?_, ?_, ?_, ?_⟩
  · intro text
    unfold parse_sections parseLines
    rw [foldl_sectStep_keys]
    rfl
  · intro st line h
    exact sectStep_header_keeps st line h
  · intro text
    exact parseLines_dropWhile (pySplitLines text)
  · intro st line hS hT hR hF hD
    unfold sectStep
    rw [if_neg (by simp [hR]), if_neg (by simp [hF]), if_neg (by simp [hT]),
      if_neg (by simp [hD])]
    cases hcur : st.1 with
    | some k => simp [hcur]
    | none => simp only [hcur]; rw [← hcur]

/-- Witness for C10 at concrete states and lines. -/
theorem c10_sections_amended_witness :
    (parse_sections "REWRITE\nbody").map Prod.fst =
      ["rewrite", "feature_table", "strategy", "doubts"] ∧
    (sectStep (some "doubts", sections0) "2. FEATURE_TABLE").2 = sections0 ∧
    List.foldl sectStep (none, sections0)
        ((pySplitLines "junk\nREWRITE\nbody").dropWhile (fun l => !isHeaderLine l)) =
      parseLines (pySplitLines "junk\nREWRITE\nbody") ∧
    sectStep (some "strategy", sections0) "THE STRATEGY AND TEST_CASES" =
      (some "strategy", appendSect sections0 "strategy" "THE STRATEGY AND TEST_CASES") := by
  refine ⟨c10_sections_amended.1 "REWRITE\nbody",
    c10_sections_amended.2.1 (some "doubts", sections0) "2. FEATURE_TABLE" (by decide),
    c10_sections_amended.2.2.1 "junk\nREWRITE\nbody",
    ?_⟩
  have h := c10_sections_amended.2.2.2 (some "strategy", sections0)
    "THE STRATEGY AND TEST_CASES" (by decide) (by decide) (by decide) (by decide) (by decide)
  exact h

/-- Witness for C9 at a concrete table. -/
theorem c9_ensure_columns_idempotent_witness :
    ensure_columns (ensure_columns ⟨["Severity"], [[""]]⟩) =
      ensure_columns ⟨["Severity"], [[""]]⟩ :=
  c9_ensure_columns_idempotent ⟨["Severity"], [[""]]⟩
